import Mathlib

/-!
Shallow embedding of `src/gui/esp32cam.py` (ESP32-CAM acquisition GUI backend).

The embedded code:
  * `ParameterSetterThread.run` (lines 30-55): one-shot HTTP parameter-set
    call with a cooperative interruption flag, reporting a single boolean
    outcome via `finished.emit`.
  * `ESP32CamClient` (lines 57-78): thin wrapper over `cv2.VideoCapture`
    (`open` stores the capture object and returns `isOpened()`; `close`
    releases and clears it).
  * `CameraWorker.run` (lines 124-206): the streaming loop — open phase,
    pacing governor, frame read with backoff, lazy stage construction with
    auto-disable on factory failure, per-stage detect/annotate with failure
    isolation, 1-second throughput windows, and the per-iteration emission
    of `hazmatDet`, `qrDet`, `frameReady` signals.

Modelling choices:
  * Wall-clock readings (`time.time()`) and all concurrent interactions
    (consumer writes to the enable flags, the `_running` stop flag, read
    results, factory outcomes) are supplied by an environment, one
    `IterInput` per loop iteration.  Consumer writes to the enable flags are
    applied at the top of an iteration, which models a write landing between
    two iterations of the worker loop (the worker only reads the flags at
    the snapshot, lines 154-155, and writes them at lines 162/170).
  * Frames and stage detection results are opaque (`Nat`); `detect` and
    `annotate` return `Except Unit _`, the `.error` case standing for a
    raised Python exception.  The pure label/text formatting of lines
    177-184 and 192 (which runs only after `detect`/`annotate` returned) is
    abstracted into a total field `Stage.texts`.
  * Python floats are modelled as `ℚ`; truthiness of a detector object and
    of the factory attributes is modelled as presence (`Option.isSome` /
    a `Bool` in the configuration).
  * Qt signal emissions are modelled as an ordered event trace.
-/

namespace Esp32Cam

/-- Opaque pixel buffer (`np.ndarray` frame). -/
abbrev Frame := Nat

/-- Opaque result of a stage's `detect` call (e.g. `(cids, confs, boxes)`
for hazmat, the list of `(text, points)` pairs for QR). -/
abbrev StageRes := Nat

/-- A constructed detection stage instance (duck-typed object with `detect`
and `annotate`; a raised exception is the `.error` case).  The pure text
post-processing of lines 177-184 / 192 is the total function `texts`. -/
structure Stage where
  detect : Frame → Except Unit StageRes
  annotate : Frame → StageRes → Except Unit Frame
  texts : StageRes → List String

/-- The two exception classes distinguished by `ParameterSetterThread.run`
(lines 48-53); both handlers emit `False`. -/
inductive ReqErr where
  | requestException
  | otherException
deriving DecidableEq

/-- `ParameterSetterThread.run` (lines 30-55).  `interruptedAtEntry` is the
value of `self._interrupted` read at line 37, `callResult` the outcome of the
blocking `requests.get` (line 41; `.error` = raised), `interruptedAfterCall`
the flag value read at line 42 (reached only when the call returned).  The
returned list is the sequence of `finished.emit` payloads. -/
def paramSetterRun (host : String) (interruptedAtEntry : Bool)
    (callResult : Except ReqErr Nat) (interruptedAfterCall : Bool) : List Bool :=
  if host = "" then [false]
  else if interruptedAtEntry then [false]
  else
    match callResult with
    | .error _ => [false]
    | .ok status =>
        if interruptedAfterCall then [false]
        else [decide (status = 200)]

/-- State of an `ESP32CamClient`: `cap = some b` means `self._cap` holds a
`VideoCapture` object whose `isOpened()` returned `b`; `cap = none` means
`self._cap is None`. -/
structure ClientState where
  cap : Option Bool
deriving DecidableEq

/-- `ESP32CamClient.open` (lines 63-65): always stores the fresh
`VideoCapture` object and returns `isOpened()` (supplied by the
environment as `openOk`). -/
def clientOpen (openOk : Bool) : Bool × ClientState :=
  (openOk, ⟨some openOk⟩)

/-- `ESP32CamClient.close` (lines 75-78): release and clear if held,
idempotent. -/
def clientClose (c : ClientState) : ClientState :=
  match c.cap with
  | some _ => ⟨none⟩
  | none => c

/-- The Qt signal emissions of `CameraWorker` in order. -/
inductive Event where
  | opened (ok : Bool) (msg : String)
  | fpsReady (v : ℚ)
  | hazmatDet (texts : List String)
  | qrDet (texts : List String)
  | frameReady (f : Frame)
  | slept (ms : Nat)
deriving DecidableEq

/-- Construction-time configuration of a `CameraWorker` (lines 87-97).
`hazmatFactoryPresent` / `qrFactoryPresent` model the truthiness of the
optional factory callables. -/
structure Config where
  streamUrl : String
  targetFps : ℚ
  hazmatFactoryPresent : Bool
  qrFactoryPresent : Bool

/-- `self.min_frame_interval = 1.0 / target_fps` (line 94). -/
def Config.minFrameInterval (c : Config) : ℚ := 1 / c.targetFps

/-- Mutable worker state visible across loop iterations: the two enable
flags (lines 99-100), the lazily constructed stage instances (lines
101-102), and the loop-local pacing / throughput accumulators
(lines 131-133). -/
structure WState where
  enableHazmat : Bool
  enableQr : Bool
  hazmat : Option Stage
  qr : Option Stage
  lastFrameTime : ℚ
  lastFpsTime : ℚ
  frameCount : Nat

/-- Environment of one loop iteration: the `_running` value observed at the
`while` test, `time.time()` at line 137, pending consumer writes to the
enable flags, the read outcome (line 143; `none` = `not ok or frame is
None`), and the results the factories would produce if called this
iteration (`.error` = the factory raises). -/
structure IterInput where
  stopRequested : Bool
  time : ℚ
  setHaz : Option Bool
  setQr : Option Bool
  readResult : Option Frame
  hazFactory : Except Unit Stage
  qrFactory : Except Unit Stage

/-- What one loop iteration did. -/
inductive StepKind where
  | paced
  | readFailed
  | processed
deriving DecidableEq, BEq

/-- Outcome of one loop iteration: successor state, emitted events in
order, the kind of iteration, the `time.time()` value of the iteration,
and whether each stage factory was invoked (lines 159 / 167). -/
structure IterResult where
  state : WState
  events : List Event
  kind : StepKind
  time : ℚ
  hazConstructAttempt : Bool
  qrConstructAttempt : Bool

/-- Apply pending consumer writes to the enable flags (the property setters
of lines 109-122, serialized before the iteration's snapshot reads). -/
def applyFlagWrites (s : WState) (i : IterInput) : WState :=
  { s with
    enableHazmat := i.setHaz.getD s.enableHazmat
    enableQr := i.setQr.getD s.enableQr }

/-- One stage's guarded `detect`/`annotate` body (lines 173-194): a raise in
`detect` or `annotate` is caught, leaving the frame as it was and the text
list empty; on success the frame is re-assigned to the annotated frame and
the texts are computed from the detection result. -/
def runStage (st : Stage) (f : Frame) : Frame × List String :=
  match st.detect f with
  | .error _ => (f, [])
  | .ok r =>
      match st.annotate f r with
      | .error _ => (f, [])
      | .ok f2 => (f2, st.texts r)

/-- Result of a lazy-construction block (lines 157-163 / 165-171). -/
structure ConstructOut where
  state : WState
  enabled : Bool
  attempted : Bool

/-- Lines 157-163: `if enable_haz and self.hazmat is None and
self.hazmat_factory:` — on factory success store the instance; on a raise,
write `self.enable_hazmat = False` and clear the local `enable_haz`. -/
def constructHazmat (cfg : Config) (s : WState) (enableHaz : Bool)
    (factoryResult : Except Unit Stage) : ConstructOut :=
  if enableHaz && s.hazmat.isNone && cfg.hazmatFactoryPresent then
    match factoryResult with
    | .ok st => ⟨{ s with hazmat := some st }, enableHaz, true⟩
    | .error _ => ⟨{ s with enableHazmat := false }, false, true⟩
  else ⟨s, enableHaz, false⟩

/-- Lines 165-171, the QR twin of `constructHazmat`. -/
def constructQr (cfg : Config) (s : WState) (enableQr : Bool)
    (factoryResult : Except Unit Stage) : ConstructOut :=
  if enableQr && s.qr.isNone && cfg.qrFactoryPresent then
    match factoryResult with
    | .ok st => ⟨{ s with qr := some st }, enableQr, true⟩
    | .error _ => ⟨{ s with enableQr := false }, false, true⟩
  else ⟨s, enableQr, false⟩

/-- Guard `if enable_... and self....:` (lines 173 / 188): run the stage
body only when the local flag is set and an instance exists (a constructed
detector object is truthy). -/
def stagePass (enabled : Bool) (inst : Option Stage) (f : Frame) : Frame × List String :=
  if enabled then
    match inst with
    | some st => runStage st f
    | none => (f, [])
  else (f, [])

/-- Lines 196-200: once the window reaches one second, emit
`frame_count / (current_time - last_fps_time)` and reset the counter and
window start. -/
def fpsCheck (s : WState) (t : ℚ) : WState × List Event :=
  if 1 ≤ t - s.lastFpsTime then
    ({ s with frameCount := 0, lastFpsTime := t },
      [Event.fpsReady ((s.frameCount : ℚ) / (t - s.lastFpsTime))])
  else (s, [])

/-- Lines 148-149: the frame was accepted — bump `frame_count` and record
`last_frame_time = current_time`. -/
def acceptState (s : WState) (t : ℚ) : WState :=
  { s with frameCount := s.frameCount + 1, lastFrameTime := t }

/-- The body of a processed iteration, from the successful read to the
emissions (lines 148-204): accept the frame, snapshot the flags (lines
154-155), lazily construct the stages (lines 157-171), chain the frame
through hazmat then QR (lines 173-194), run the throughput window check
(lines 196-200), and emit findings-then-frame (lines 202-204). -/
def processedStep (cfg : Config) (s : WState) (i : IterInput) (frame : Frame) : IterResult :=
  let s1 := acceptState (applyFlagWrites s i) i.time
  let ch := constructHazmat cfg s1 s1.enableHazmat i.hazFactory
  let cq := constructQr cfg ch.state s1.enableQr i.qrFactory
  let h := stagePass ch.enabled cq.state.hazmat frame
  let q := stagePass cq.enabled cq.state.qr h.1
  let fo := fpsCheck cq.state i.time
  ⟨fo.1,
    fo.2 ++ [Event.hazmatDet h.2, Event.qrDet q.2, Event.frameReady q.1],
    StepKind.processed, i.time, ch.attempted, cq.attempted⟩

/-- One iteration of the `while self._running` body (lines 136-204). -/
def step (cfg : Config) (s0 : WState) (i : IterInput) : IterResult :=
  let s := applyFlagWrites s0 i
  if i.time - s.lastFrameTime < cfg.minFrameInterval then
    ⟨s, [Event.slept 5], StepKind.paced, i.time, false, false⟩
  else
    match i.readResult with
    | none => ⟨s, [Event.slept 10], StepKind.readFailed, i.time, false, false⟩
    | some frame => processedStep cfg s0 i frame

/-- The value the hazmat stage pass of a processed iteration would produce
on input frame `f` (the instance and local flag as they stand after the
construction blocks of that iteration). -/
def hazPassOfIteration (cfg : Config) (s : WState) (i : IterInput)
    (f : Frame) : Frame × List String :=
  let s1 := acceptState (applyFlagWrites s i) i.time
  let ch := constructHazmat cfg s1 s1.enableHazmat i.hazFactory
  let cq := constructQr cfg ch.state s1.enableQr i.qrFactory
  stagePass ch.enabled cq.state.hazmat f

/-- The value the QR stage pass of a processed iteration would produce on
input frame `f`. -/
def qrPassOfIteration (cfg : Config) (s : WState) (i : IterInput)
    (f : Frame) : Frame × List String :=
  let s1 := acceptState (applyFlagWrites s i) i.time
  let ch := constructHazmat cfg s1 s1.enableHazmat i.hazFactory
  let cq := constructQr cfg ch.state s1.enableQr i.qrFactory
  stagePass cq.enabled cq.state.qr f

/-- The streaming loop over a finite schedule of iteration environments.
Returns the iteration records in order, the state the loop is left in, and
whether the loop exited because a stop was observed (`while self._running`
test failing).  An exhausted schedule with no stop means the loop is still
running (a partial observation of the run). -/
def runIters (cfg : Config) (s : WState) : List IterInput → List IterResult × WState × Bool
  | [] => ([], s, false)
  | i :: rest =>
      if i.stopRequested then ([], s, true)
      else
        let r := step cfg s i
        let rem := runIters cfg r.state rest
        (r :: rem.1, rem.2.1, rem.2.2)

/-- Worker state right after a successful open (lines 131-134): both enable
flags start `False` at construction (lines 99-100) and `last_frame_time` /
`last_fps_time` are two fresh `time.time()` readings. -/
def initialWState (t0 t1 : ℚ) : WState :=
  ⟨false, false, none, none, t0, t1, 0⟩

/-- Observable outcome of one call of `CameraWorker.run`. -/
structure RunResult where
  events : List Event
  iters : List IterResult
  finalState : WState
  client : ClientState
  stopped : Bool

/-- `CameraWorker.run` (lines 124-206): open, emit `opened`, stream, and
release the client when the loop exits on stop.  `openOk` is the
environment's answer to `self.client.open()`; on failure the method returns
at line 128 — note that it does not call `self.client.close()` there.
`stopped = true` means the method returned. -/
def runWorker (cfg : Config) (openOk : Bool) (t0 t1 : ℚ)
    (inputs : List IterInput) : RunResult :=
  let opn := clientOpen openOk
  if opn.1 then
    let s0 := initialWState t0 t1
    let res := runIters cfg s0 inputs
    ⟨Event.opened true "opened" :: (res.1.map IterResult.events).flatten,
      res.1, res.2.1, if res.2.2 then clientClose opn.2 else opn.2, res.2.2⟩
  else
    ⟨[Event.opened false ("Could not open stream " ++ cfg.streamUrl)],
      [], initialWState t0 t1, opn.2, true⟩

/-- Timestamps recorded for accepted frames (`last_frame_time =
current_time`, line 149), in order. -/
def acceptedTimes (rs : List IterResult) : List ℚ :=
  (rs.filter (fun r => decide (r.kind = StepKind.processed))).map IterResult.time

/-- Whether an event is a throughput emission. -/
def isFps : Event → Bool
  | Event.fpsReady _ => true
  | _ => false

/-- Times of the iterations that emitted a throughput sample. -/
def fpsTimes (rs : List IterResult) : List ℚ :=
  (rs.filter (fun r => r.events.any isFps)).map IterResult.time

/-- Every `frameReady` in the trace is immediately preceded by the `qrDet`
of its iteration, itself immediately preceded by that iteration's
`hazmatDet`; findings events never occur detached from their frame. -/
def paired : List Event → Bool
  | [] => true
  | Event.hazmatDet _ :: Event.qrDet _ :: Event.frameReady _ :: rest => paired rest
  | Event.hazmatDet _ :: _ => false
  | Event.qrDet _ :: _ => false
  | Event.frameReady _ :: _ => false
  | _ :: rest => paired rest

/-- A stage body raised inside `detect`, or inside `annotate` after a
successful `detect` (the cases the spec's failure-isolation clause is
about). -/
def stageRaises (st : Stage) (f : Frame) : Prop :=
  (∃ e, st.detect f = Except.error e) ∨
    (∃ r e, st.detect f = Except.ok r ∧ st.annotate f r = Except.error e)

/-! ### Concrete fixtures used to evaluate the model on sample runs -/

/-- A stage whose calls all succeed: `annotate` stamps the frame,
`detect` yields one finding. -/
def okStage : Stage :=
  ⟨fun f => Except.ok f, fun f r => Except.ok (f + r + 100), fun _ => ["finding"]⟩

/-- A stage whose `detect` raises. -/
def failDetectStage : Stage :=
  ⟨fun _ => Except.error (), fun f _ => Except.ok (f + 100), fun _ => ["finding"]⟩

/-- A stage whose `detect` succeeds but whose `annotate` raises. -/
def failAnnotateStage : Stage :=
  ⟨fun f => Except.ok f, fun _ _ => Except.error (), fun _ => ["finding"]⟩

/-- A sample worker configuration (both factories supplied, 30 fps). -/
def wCfg : Config := ⟨"http://192.168.1.50:81/stream", 30, true, true⟩

/-- A benign iteration environment at time `t`: no stop, no flag writes, a
frame arrives, factories would succeed. -/
def mkInput (t : ℚ) : IterInput :=
  ⟨false, t, none, none, some 7, Except.ok okStage, Except.ok okStage⟩

/-- An iteration environment in which the worker observes a stop request. -/
def stopInput : IterInput :=
  ⟨true, 0, none, none, none, Except.ok okStage, Except.ok okStage⟩

/-- A state with the hazmat stage enabled and constructed, but raising on
`detect`. -/
def hazFailState : WState :=
  { initialWState 0 0 with enableHazmat := true, hazmat := some failDetectStage }

/-- A state with the QR stage enabled and constructed, but raising on
`annotate`. -/
def qrFailState : WState :=
  { initialWState 0 0 with enableQr := true, qr := some failAnnotateStage }

/-- A state with the hazmat stage enabled but not yet constructed. -/
def hazPendingState : WState :=
  { initialWState 0 0 with enableHazmat := true }

/-- A state with the QR stage enabled but not yet constructed. -/
def qrPendingState : WState :=
  { initialWState 0 0 with enableQr := true }

/-- A benign environment at `t = 1` whose hazmat factory raises. -/
def hazErrInput : IterInput :=
  { mkInput 1 with hazFactory := Except.error () }

/-- A benign environment at `t = 1` whose QR factory raises. -/
def qrErrInput : IterInput :=
  { mkInput 1 with qrFactory := Except.error () }

/-- A configuration constructed with no factories at all. -/
def noFacCfg : Config := ⟨"http://10.0.0.2:81/stream", 30, false, false⟩

/-! ### Field-preservation lemmas for the building blocks of `step` -/

@[simp]
theorem applyFlagWrites_lastFrameTime (s : WState) (i : IterInput) :
    (applyFlagWrites s i).lastFrameTime = s.lastFrameTime := rfl

@[simp]
theorem applyFlagWrites_lastFpsTime (s : WState) (i : IterInput) :
    (applyFlagWrites s i).lastFpsTime = s.lastFpsTime := rfl

@[simp]
theorem applyFlagWrites_frameCount (s : WState) (i : IterInput) :
    (applyFlagWrites s i).frameCount = s.frameCount := rfl

@[simp]
theorem applyFlagWrites_hazmat (s : WState) (i : IterInput) :
    (applyFlagWrites s i).hazmat = s.hazmat := rfl

@[simp]
theorem applyFlagWrites_qr (s : WState) (i : IterInput) :
    (applyFlagWrites s i).qr = s.qr := rfl

@[simp]
theorem acceptState_lastFrameTime (s : WState) (t : ℚ) :
    (acceptState s t).lastFrameTime = t := rfl

@[simp]
theorem acceptState_lastFpsTime (s : WState) (t : ℚ) :
    (acceptState s t).lastFpsTime = s.lastFpsTime := rfl

@[simp]
theorem acceptState_frameCount (s : WState) (t : ℚ) :
    (acceptState s t).frameCount = s.frameCount + 1 := rfl

@[simp]
theorem acceptState_hazmat (s : WState) (t : ℚ) :
    (acceptState s t).hazmat = s.hazmat := rfl

@[simp]
theorem acceptState_qr (s : WState) (t : ℚ) :
    (acceptState s t).qr = s.qr := rfl

@[simp]
theorem acceptState_enableHazmat (s : WState) (t : ℚ) :
    (acceptState s t).enableHazmat = s.enableHazmat := rfl

@[simp]
theorem acceptState_enableQr (s : WState) (t : ℚ) :
    (acceptState s t).enableQr = s.enableQr := rfl

@[simp]
theorem constructHazmat_lastFrameTime (cfg : Config) (s : WState) (e : Bool)
    (fr : Except Unit Stage) :
    (constructHazmat cfg s e fr).state.lastFrameTime = s.lastFrameTime := by
  unfold constructHazmat
  split
  · split <;> rfl
  · rfl

@[simp]
theorem constructHazmat_lastFpsTime (cfg : Config) (s : WState) (e : Bool)
    (fr : Except Unit Stage) :
    (constructHazmat cfg s e fr).state.lastFpsTime = s.lastFpsTime := by
  unfold constructHazmat
  split
  · split <;> rfl
  · rfl

@[simp]
theorem constructHazmat_frameCount (cfg : Config) (s : WState) (e : Bool)
    (fr : Except Unit Stage) :
    (constructHazmat cfg s e fr).state.frameCount = s.frameCount := by
  unfold constructHazmat
  split
  · split <;> rfl
  · rfl

@[simp]
theorem constructHazmat_qr (cfg : Config) (s : WState) (e : Bool)
    (fr : Except Unit Stage) :
    (constructHazmat cfg s e fr).state.qr = s.qr := by
  unfold constructHazmat
  split
  · split <;> rfl
  · rfl

@[simp]
theorem constructHazmat_enableQr (cfg : Config) (s : WState) (e : Bool)
    (fr : Except Unit Stage) :
    (constructHazmat cfg s e fr).state.enableQr = s.enableQr := by
  unfold constructHazmat
  split
  · split <;> rfl
  · rfl

@[simp]
theorem constructQr_lastFrameTime (cfg : Config) (s : WState) (e : Bool)
    (fr : Except Unit Stage) :
    (constructQr cfg s e fr).state.lastFrameTime = s.lastFrameTime := by
  unfold constructQr
  split
  · split <;> rfl
  · rfl

@[simp]
theorem constructQr_lastFpsTime (cfg : Config) (s : WState) (e : Bool)
    (fr : Except Unit Stage) :
    (constructQr cfg s e fr).state.lastFpsTime = s.lastFpsTime := by
  unfold constructQr
  split
  · split <;> rfl
  · rfl

@[simp]
theorem constructQr_frameCount (cfg : Config) (s : WState) (e : Bool)
    (fr : Except Unit Stage) :
    (constructQr cfg s e fr).state.frameCount = s.frameCount := by
  unfold constructQr
  split
  · split <;> rfl
  · rfl

@[simp]
theorem constructQr_hazmat (cfg : Config) (s : WState) (e : Bool)
    (fr : Except Unit Stage) :
    (constructQr cfg s e fr).state.hazmat = s.hazmat := by
  unfold constructQr
  split
  · split <;> rfl
  · rfl

@[simp]
theorem constructQr_enableHazmat (cfg : Config) (s : WState) (e : Bool)
    (fr : Except Unit Stage) :
    (constructQr cfg s e fr).state.enableHazmat = s.enableHazmat := by
  unfold constructQr
  split
  · split <;> rfl
  · rfl

@[simp]
theorem fpsCheck_lastFrameTime (s : WState) (t : ℚ) :
    (fpsCheck s t).1.lastFrameTime = s.lastFrameTime := by
  unfold fpsCheck
  split <;> rfl

@[simp]
theorem fpsCheck_hazmat (s : WState) (t : ℚ) :
    (fpsCheck s t).1.hazmat = s.hazmat := by
  unfold fpsCheck
  split <;> rfl

@[simp]
theorem fpsCheck_qr (s : WState) (t : ℚ) :
    (fpsCheck s t).1.qr = s.qr := by
  unfold fpsCheck
  split <;> rfl

@[simp]
theorem fpsCheck_enableHazmat (s : WState) (t : ℚ) :
    (fpsCheck s t).1.enableHazmat = s.enableHazmat := by
  unfold fpsCheck
  split <;> rfl

@[simp]
theorem fpsCheck_enableQr (s : WState) (t : ℚ) :
    (fpsCheck s t).1.enableQr = s.enableQr := by
  unfold fpsCheck
  split <;> rfl

/-! ### Characterization of `step` -/

theorem step_paced_eq (cfg : Config) (s : WState) (i : IterInput)
    (h : i.time - s.lastFrameTime < cfg.minFrameInterval) :
    step cfg s i =
      ⟨applyFlagWrites s i, [Event.slept 5], StepKind.paced, i.time, false, false⟩ := by
  unfold step
  have h' : i.time - (applyFlagWrites s i).lastFrameTime < cfg.minFrameInterval := by
    simpa using h
  rw [if_pos h']

theorem step_readFailed_eq (cfg : Config) (s : WState) (i : IterInput)
    (h : ¬ i.time - s.lastFrameTime < cfg.minFrameInterval)
    (hr : i.readResult = none) :
    step cfg s i =
      ⟨applyFlagWrites s i, [Event.slept 10], StepKind.readFailed, i.time, false, false⟩ := by
  unfold step
  have h' : ¬ i.time - (applyFlagWrites s i).lastFrameTime < cfg.minFrameInterval := by
    simpa using h
  rw [if_neg h', hr]

theorem step_processed_eq (cfg : Config) (s : WState) (i : IterInput) (f : Frame)
    (h : ¬ i.time - s.lastFrameTime < cfg.minFrameInterval)
    (hr : i.readResult = some f) :
    step cfg s i = processedStep cfg s i f := by
  unfold step
  have h' : ¬ i.time - (applyFlagWrites s i).lastFrameTime < cfg.minFrameInterval := by
    simpa using h
  rw [if_neg h', hr]

/-- Every iteration is exactly one of: paced idle-wait, read-failure
backoff, or a processed frame. -/
theorem step_cases (cfg : Config) (s : WState) (i : IterInput) :
    (i.time - s.lastFrameTime < cfg.minFrameInterval ∧
      step cfg s i =
        ⟨applyFlagWrites s i, [Event.slept 5], StepKind.paced, i.time, false, false⟩) ∨
    (¬ i.time - s.lastFrameTime < cfg.minFrameInterval ∧ i.readResult = none ∧
      step cfg s i =
        ⟨applyFlagWrites s i, [Event.slept 10], StepKind.readFailed, i.time, false, false⟩) ∨
    (¬ i.time - s.lastFrameTime < cfg.minFrameInterval ∧
      ∃ f, i.readResult = some f ∧ step cfg s i = processedStep cfg s i f) := by
  by_cases h : i.time - s.lastFrameTime < cfg.minFrameInterval
  · exact Or.inl ⟨h, step_paced_eq cfg s i h⟩
  · cases hr : i.readResult with
    | none => exact Or.inr (Or.inl ⟨h, rfl, step_readFailed_eq cfg s i h hr⟩)
    | some f => exact Or.inr (Or.inr ⟨h, f, rfl, step_processed_eq cfg s i f h hr⟩)

@[simp]
theorem processedStep_kind (cfg : Config) (s : WState) (i : IterInput) (f : Frame) :
    (processedStep cfg s i f).kind = StepKind.processed := rfl

@[simp]
theorem processedStep_time (cfg : Config) (s : WState) (i : IterInput) (f : Frame) :
    (processedStep cfg s i f).time = i.time := rfl

theorem processedStep_lastFrameTime (cfg : Config) (s : WState) (i : IterInput)
    (f : Frame) :
    (processedStep cfg s i f).state.lastFrameTime = i.time := by
  unfold processedStep
  simp

theorem step_not_processed_state (cfg : Config) (s : WState) (i : IterInput)
    (h : (step cfg s i).kind ≠ StepKind.processed) :
    (step cfg s i).state = applyFlagWrites s i := by
  rcases step_cases cfg s i with ⟨_, heq⟩ | ⟨_, _, heq⟩ | ⟨_, f, _, heq⟩
  · rw [heq]
  · rw [heq]
  · rw [heq] at h
    simp at h

theorem step_processed_facts (cfg : Config) (s : WState) (i : IterInput)
    (h : (step cfg s i).kind = StepKind.processed) :
    (step cfg s i).state.lastFrameTime = i.time ∧
      (step cfg s i).time = i.time ∧
      s.lastFrameTime + cfg.minFrameInterval ≤ i.time := by
  rcases step_cases cfg s i with ⟨_, heq⟩ | ⟨_, _, heq⟩ | ⟨hge, f, _, heq⟩
  · rw [heq] at h
    simp at h
  · rw [heq] at h
    simp at h
  · rw [heq]
    refine ⟨processedStep_lastFrameTime cfg s i f, processedStep_time cfg s i f, ?_⟩
    have := not_lt.mp hge
    linarith

theorem processedStep_events (cfg : Config) (s : WState) (i : IterInput) (f : Frame) :
    (processedStep cfg s i f).events =
      (fpsCheck (constructQr cfg
          (constructHazmat cfg (acceptState (applyFlagWrites s i) i.time)
            (acceptState (applyFlagWrites s i) i.time).enableHazmat i.hazFactory).state
          (acceptState (applyFlagWrites s i) i.time).enableQr i.qrFactory).state i.time).2 ++
        [Event.hazmatDet (hazPassOfIteration cfg s i f).2,
         Event.qrDet (qrPassOfIteration cfg s i (hazPassOfIteration cfg s i f).1).2,
         Event.frameReady (qrPassOfIteration cfg s i (hazPassOfIteration cfg s i f).1).1] := by
  rfl

/-! ### Unfolding lemmas for the loop -/

theorem runIters_nil (cfg : Config) (s : WState) :
    runIters cfg s [] = ([], s, false) := rfl

theorem runIters_cons_stop (cfg : Config) (s : WState) (i : IterInput)
    (rest : List IterInput) (h : i.stopRequested = true) :
    runIters cfg s (i :: rest) = ([], s, true) := by
  simp [runIters, h]

theorem runIters_cons_go (cfg : Config) (s : WState) (i : IterInput)
    (rest : List IterInput) (h : i.stopRequested = false) :
    runIters cfg s (i :: rest) =
      (step cfg s i :: (runIters cfg (step cfg s i).state rest).1,
        (runIters cfg (step cfg s i).state rest).2.1,
        (runIters cfg (step cfg s i).state rest).2.2) := by
  simp [runIters, h]

theorem acceptedTimes_nil : acceptedTimes [] = [] := rfl

theorem acceptedTimes_cons (r : IterResult) (rs : List IterResult) :
    acceptedTimes (r :: rs) =
      if r.kind = StepKind.processed then r.time :: acceptedTimes rs
      else acceptedTimes rs := by
  unfold acceptedTimes
  rw [List.filter_cons]
  by_cases h : r.kind = StepKind.processed
  · simp [h]
  · simp [h]

/-- Pacing chain: prefixing the current `last_frame_time`, the accepted
timestamps of any run segment advance by at least `min_frame_interval`
each. -/
theorem runIters_acceptedTimes_chain (cfg : Config) (inputs : List IterInput) :
    ∀ s : WState,
      List.Chain' (fun a b => a + cfg.minFrameInterval ≤ b)
        (s.lastFrameTime :: acceptedTimes (runIters cfg s inputs).1) := by
  induction inputs with
  | nil =>
      intro s
      rw [runIters_nil]
      simp [acceptedTimes_nil]
  | cons i rest ih =>
      intro s
      by_cases hstop : i.stopRequested
      · rw [runIters_cons_stop cfg s i rest hstop]
        simp [acceptedTimes_nil]
      · rw [runIters_cons_go cfg s i rest (Bool.not_eq_true _ ▸ hstop)]
        rw [acceptedTimes_cons]
        by_cases hk : (step cfg s i).kind = StepKind.processed
        · rw [if_pos hk]
          obtain ⟨hlf, htime, hle⟩ := step_processed_facts cfg s i hk
          rw [htime]
          rw [List.chain'_cons]
          constructor
          · exact hle
          · have := ih (step cfg s i).state
            rw [hlf] at this
            exact this
        · rw [if_neg hk]
          have hst : (step cfg s i).state.lastFrameTime = s.lastFrameTime := by
            rw [step_not_processed_state cfg s i hk]
            simp
          have := ih (step cfg s i).state
          rw [hst] at this
          exact this

/-- During a schedule of stop-free read failures the loop neither stops nor
emits anything but the two fixed sleeps. -/
theorem runIters_allFail (cfg : Config) (inputs : List IterInput)
    (hall : ∀ j ∈ inputs, j.stopRequested = false ∧ j.readResult = none) :
    ∀ s : WState,
      (runIters cfg s inputs).2.2 = false ∧
      (runIters cfg s inputs).1.length = inputs.length ∧
      ∀ e ∈ ((runIters cfg s inputs).1.map IterResult.events).flatten,
        e = Event.slept 5 ∨ e = Event.slept 10 := by
  induction inputs with
  | nil =>
      intro s
      rw [runIters_nil]
      simp
  | cons i rest ih =>
      intro s
      obtain ⟨hstop, hread⟩ := hall i (List.mem_cons_self i rest)
      have hall' : ∀ j ∈ rest, j.stopRequested = false ∧ j.readResult = none :=
        fun j hj => hall j (List.mem_cons_of_mem i hj)
      rw [runIters_cons_go cfg s i rest hstop]
      have hev : (step cfg s i).events = [Event.slept 5] ∨
          (step cfg s i).events = [Event.slept 10] := by
        rcases step_cases cfg s i with ⟨_, heq⟩ | ⟨_, _, heq⟩ | ⟨_, f, hf, heq⟩
        · rw [heq]
          exact Or.inl rfl
        · rw [heq]
          exact Or.inr rfl
        · rw [hread] at hf
          exact absurd hf (by simp)
      obtain ⟨h1, h2, h3⟩ := ih hall' (step cfg s i).state
      refine ⟨h1, by simpa using h2, ?_⟩
      intro e he
      simp only [List.map_cons, List.flatten_cons, List.mem_append] at he
      rcases he with he | he
      · rcases hev with hev | hev <;> rw [hev] at he <;> simp at he <;> simp [he]
      · exact h3 e he

/-! ### Behaviour of the construction blocks and stage passes -/

theorem constructHazmat_not_triggered (cfg : Config) (s : WState) (e : Bool)
    (fr : Except Unit Stage)
    (h : (e && s.hazmat.isNone && cfg.hazmatFactoryPresent) = false) :
    constructHazmat cfg s e fr = ⟨s, e, false⟩ := by
  unfold constructHazmat
  rw [if_neg]
  simp [h]

theorem constructHazmat_ok (cfg : Config) (s : WState) (e : Bool) (st : Stage)
    (h : (e && s.hazmat.isNone && cfg.hazmatFactoryPresent) = true) :
    constructHazmat cfg s e (Except.ok st) = ⟨{ s with hazmat := some st }, e, true⟩ := by
  unfold constructHazmat
  rw [if_pos h]

theorem constructHazmat_err (cfg : Config) (s : WState) (e : Bool) (er : Unit)
    (h : (e && s.hazmat.isNone && cfg.hazmatFactoryPresent) = true) :
    constructHazmat cfg s e (Except.error er) =
      ⟨{ s with enableHazmat := false }, false, true⟩ := by
  unfold constructHazmat
  rw [if_pos h]

theorem constructQr_not_triggered (cfg : Config) (s : WState) (e : Bool)
    (fr : Except Unit Stage)
    (h : (e && s.qr.isNone && cfg.qrFactoryPresent) = false) :
    constructQr cfg s e fr = ⟨s, e, false⟩ := by
  unfold constructQr
  rw [if_neg]
  simp [h]

theorem constructQr_ok (cfg : Config) (s : WState) (e : Bool) (st : Stage)
    (h : (e && s.qr.isNone && cfg.qrFactoryPresent) = true) :
    constructQr cfg s e (Except.ok st) = ⟨{ s with qr := some st }, e, true⟩ := by
  unfold constructQr
  rw [if_pos h]

theorem constructQr_err (cfg : Config) (s : WState) (e : Bool) (er : Unit)
    (h : (e && s.qr.isNone && cfg.qrFactoryPresent) = true) :
    constructQr cfg s e (Except.error er) =
      ⟨{ s with enableQr := false }, false, true⟩ := by
  unfold constructQr
  rw [if_pos h]

theorem fpsCheck_events_shape (s : WState) (t : ℚ) :
    (fpsCheck s t).2 = [] ∨ ∃ v, (fpsCheck s t).2 = [Event.fpsReady v] := by
  unfold fpsCheck
  split
  · exact Or.inr ⟨_, rfl⟩
  · exact Or.inl rfl

theorem runStage_of_raises (st : Stage) (f : Frame) (h : stageRaises st f) :
    runStage st f = (f, []) := by
  unfold runStage
  rcases h with ⟨e, he⟩ | ⟨r, e, hd, ha⟩
  · rw [he]
  · rw [hd]
    simp [ha]

/-- When the hazmat stage is already constructed and its flag is on (with
no pending write), the hazmat pass of the iteration is exactly
`runStage st`. -/
theorem hazPassOfIteration_of_constructed (cfg : Config) (s : WState)
    (i : IterInput) (f : Frame) (st : Stage)
    (h1 : s.enableHazmat = true) (h2 : i.setHaz = none) (h3 : s.hazmat = some st) :
    hazPassOfIteration cfg s i f = runStage st f := by
  simp only [hazPassOfIteration]
  rw [constructHazmat_not_triggered cfg _ _ _ (by simp [h3])]
  simp [stagePass, applyFlagWrites, h1, h2, h3]

/-- When the QR stage is already constructed and its flag is on (with no
pending write), the QR pass of the iteration is exactly `runStage st`. -/
theorem qrPassOfIteration_of_constructed (cfg : Config) (s : WState)
    (i : IterInput) (g : Frame) (st : Stage)
    (h1 : s.enableQr = true) (h2 : i.setQr = none) (h3 : s.qr = some st) :
    qrPassOfIteration cfg s i g = runStage st g := by
  simp only [qrPassOfIteration]
  rw [constructQr_not_triggered cfg _ _ _ (by simp [h3])]
  simp [stagePass, applyFlagWrites, h1, h2, h3]

/-! ### Claim theorems -/

/-- C1: Pacing invariant — for a target rate `R > 0` fixed at construction
(`min_frame_interval = 1/R`), the timestamps recorded for consecutively
accepted frames are never closer than `1/R` (stated as a chain over the
whole accepted-timestamp sequence of any run segment, anchored at the
current `last_frame_time`); and an iteration whose elapsed time since the
last accepted frame is below `1/R` only sleeps the fixed 5 ms slice and
re-checks — it does not read a frame, and changes nothing but the pending
flag writes. -/
theorem pacing_invariant (cfg : Config) (hR : 0 < cfg.targetFps)
    (s : WState) (inputs : List IterInput) (i : IterInput) :
    List.Chain' (fun a b => a + 1 / cfg.targetFps ≤ b)
      (s.lastFrameTime :: acceptedTimes (runIters cfg s inputs).1) ∧
    (i.time - s.lastFrameTime < 1 / cfg.targetFps →
      step cfg s i =
        ⟨applyFlagWrites s i, [Event.slept 5], StepKind.paced, i.time, false, false⟩) :=
  ⟨runIters_acceptedTimes_chain cfg inputs s, fun h => step_paced_eq cfg s i h⟩

/-- Witness for `pacing_invariant` at `R = 30`: a run with two reads one
second apart, and a paced re-check at `t = 1/100 < 1/30`. -/
theorem pacing_invariant_witness :
    (0 : ℚ) < wCfg.targetFps ∧
    (List.Chain' (fun a b => a + 1 / wCfg.targetFps ≤ b)
        ((initialWState 0 0).lastFrameTime ::
          acceptedTimes (runIters wCfg (initialWState 0 0) [mkInput 1, mkInput 2]).1) ∧
      ((mkInput (1 / 100)).time - (initialWState 0 0).lastFrameTime < 1 / wCfg.targetFps →
        step wCfg (initialWState 0 0) (mkInput (1 / 100)) =
          ⟨applyFlagWrites (initialWState 0 0) (mkInput (1 / 100)), [Event.slept 5],
            StepKind.paced, (mkInput (1 / 100)).time, false, false⟩)) :=
  ⟨by norm_num [wCfg],
    pacing_invariant wCfg (by norm_num [wCfg]) (initialWState 0 0)
      [mkInput 1, mkInput 2] (mkInput (1 / 100))⟩

/-- C3: if opening the stream fails, the worker emits exactly one
`opened(false, message)` with the human-readable reason, never enters the
streaming loop (no iterations), and emits no other event — in particular no
`frameReady`, `hazmatDet`, `qrDet` or `fpsReady`. -/
theorem open_failure_single_emission (cfg : Config) (t0 t1 : ℚ)
    (inputs : List IterInput) :
    (runWorker cfg false t0 t1 inputs).events =
      [Event.opened false ("Could not open stream " ++ cfg.streamUrl)] ∧
    (runWorker cfg false t0 t1 inputs).iters = [] :=
  ⟨rfl, rfl⟩

/-- C4 (as stated) is false: on open failure `CameraWorker.run` returns at
line 128 without calling `self.client.close()`, so the `VideoCapture`
object stored by `ESP32CamClient.open` (line 64) is left held in
`self._cap`, unreleased. -/
theorem streamhandle_release_counterexample :
    (runWorker wCfg false 0 0 []).stopped = true ∧
    (runWorker wCfg false 0 0 []).client ≠ ClientState.mk none ∧
    (runWorker wCfg false 0 0 []).client = ClientState.mk (some false) := by
  refine ⟨rfl, ?_, rfl⟩
  intro h
  simpa [runWorker, clientOpen] using h

/-- C4 amended: the capture is released when the worker stops after a
successful open; on open failure the worker terminates still holding the
(never successfully opened) capture object — the handle held there is not
an opened stream. -/
theorem streamhandle_release_amended (cfg : Config) (t0 t1 : ℚ)
    (inputs : List IterInput) :
    ((runWorker cfg true t0 t1 inputs).stopped = true →
      (runWorker cfg true t0 t1 inputs).client = ClientState.mk none) ∧
    (runWorker cfg false t0 t1 inputs).client = ClientState.mk (some false) ∧
    (runWorker cfg false t0 t1 inputs).stopped = true := by
  refine ⟨?_, rfl, rfl⟩
  intro h
  have h' : (runIters cfg (initialWState t0 t1) inputs).2.2 = true := h
  show (if (runIters cfg (initialWState t0 t1) inputs).2.2 then
      clientClose ⟨some true⟩ else ⟨some true⟩) = ClientState.mk none
  rw [h']
  rfl

/-- Witness for `streamhandle_release_amended`: a one-iteration run that is
stopped immediately releases the capture. -/
theorem streamhandle_release_amended_witness :
    (runWorker wCfg true 0 0 [stopInput]).client = ClientState.mk none :=
  (streamhandle_release_amended wCfg 0 0 [stopInput]).1 (by decide)

/-- C7: a failed read is followed by the fixed 10 ms backoff sleep and a
retry (nothing else changes), and over any stop-free schedule of read
failures the loop neither terminates nor emits anything but the two fixed
sleeps — no `frameReady`, no findings, no throughput sample — consuming the
whole schedule. -/
theorem read_failure_backoff (cfg : Config) (s : WState) (i : IterInput)
    (inputs : List IterInput)
    (h1 : ¬ i.time - s.lastFrameTime < cfg.minFrameInterval)
    (h2 : i.readResult = none)
    (hall : ∀ j ∈ inputs, j.stopRequested = false ∧ j.readResult = none) :
    step cfg s i =
      ⟨applyFlagWrites s i, [Event.slept 10], StepKind.readFailed, i.time, false, false⟩ ∧
    (runIters cfg s inputs).2.2 = false ∧
    (runIters cfg s inputs).1.length = inputs.length ∧
    ∀ e ∈ ((runIters cfg s inputs).1.map IterResult.events).flatten,
      e = Event.slept 5 ∨ e = Event.slept 10 :=
  ⟨step_readFailed_eq cfg s i h1 h2, (runIters_allFail cfg inputs hall s).1,
    (runIters_allFail cfg inputs hall s).2.1, (runIters_allFail cfg inputs hall s).2.2⟩

/-- Witness for `read_failure_backoff`: two consecutive failed reads at one
second apart starting from the initial state. -/
theorem read_failure_backoff_witness :
    (¬ ({ mkInput 1 with readResult := none } : IterInput).time -
        (initialWState 0 0).lastFrameTime < wCfg.minFrameInterval) ∧
    ({ mkInput 1 with readResult := none } : IterInput).readResult = none ∧
    (∀ j ∈ [{ mkInput 2 with readResult := none }],
        j.stopRequested = false ∧ j.readResult = none) ∧
    (step wCfg (initialWState 0 0) { mkInput 1 with readResult := none } =
      ⟨applyFlagWrites (initialWState 0 0) { mkInput 1 with readResult := none },
        [Event.slept 10], StepKind.readFailed,
        ({ mkInput 1 with readResult := none } : IterInput).time, false, false⟩ ∧
      (runIters wCfg (initialWState 0 0) [{ mkInput 2 with readResult := none }]).2.2 = false ∧
      (runIters wCfg (initialWState 0 0)
        [{ mkInput 2 with readResult := none }]).1.length =
        [({ mkInput 2 with readResult := none } : IterInput)].length ∧
      ∀ e ∈ ((runIters wCfg (initialWState 0 0)
          [{ mkInput 2 with readResult := none }]).1.map IterResult.events).flatten,
        e = Event.slept 5 ∨ e = Event.slept 10) :=
  ⟨by norm_num [mkInput, initialWState, wCfg, Config.minFrameInterval], rfl,
    by decide,
    read_failure_backoff wCfg (initialWState 0 0) { mkInput 1 with readResult := none }
      [{ mkInput 2 with readResult := none }]
      (by norm_num [mkInput, initialWState, wCfg, Config.minFrameInterval]) rfl
      (by decide)⟩

/-- C2: failure isolation — in any iteration that accepts a frame, if an
enabled, constructed stage's `detect` or `annotate` raises, the exception is
caught: that stage's findings list published for that frame is empty, the
frame in flight is left unmodified by that stage (the raising stage's pass
returns its input frame, so the other stage and the `frameReady` emission
receive the untouched frame), and the frame is still published in a
normally completed (`processed`) iteration.  First conjunct: the raising
stage is hazmat; second: the raising stage is QR. -/
theorem stage_failure_isolation (cfg : Config) (s : WState) (i : IterInput)
    (f : Frame) (st : Stage)
    (hge : ¬ i.time - s.lastFrameTime < cfg.minFrameInterval)
    (hr : i.readResult = some f) :
    (s.enableHazmat = true → i.setHaz = none → s.hazmat = some st →
      stageRaises st f →
      runStage st f = (f, []) ∧
      ∃ pre, (pre = [] ∨ ∃ v, pre = [Event.fpsReady v]) ∧
        (step cfg s i).events =
          pre ++ [Event.hazmatDet [],
            Event.qrDet (qrPassOfIteration cfg s i f).2,
            Event.frameReady (qrPassOfIteration cfg s i f).1] ∧
        (step cfg s i).kind = StepKind.processed) ∧
    (s.enableQr = true → i.setQr = none → s.qr = some st →
      stageRaises st (hazPassOfIteration cfg s i f).1 →
      runStage st (hazPassOfIteration cfg s i f).1 = ((hazPassOfIteration cfg s i f).1, []) ∧
      ∃ pre, (pre = [] ∨ ∃ v, pre = [Event.fpsReady v]) ∧
        (step cfg s i).events =
          pre ++ [Event.hazmatDet (hazPassOfIteration cfg s i f).2,
            Event.qrDet [],
            Event.frameReady (hazPassOfIteration cfg s i f).1] ∧
        (step cfg s i).kind = StepKind.processed) := by
  have hstep := step_processed_eq cfg s i f hge hr
  constructor
  · intro h1 h2 h3 hraise
    have hpass : hazPassOfIteration cfg s i f = (f, []) :=
      (hazPassOfIteration_of_constructed cfg s i f st h1 h2 h3).trans
        (runStage_of_raises st f hraise)
    refine ⟨runStage_of_raises st f hraise,
      (fpsCheck (constructQr cfg
          (constructHazmat cfg (acceptState (applyFlagWrites s i) i.time)
            (acceptState (applyFlagWrites s i) i.time).enableHazmat i.hazFactory).state
          (acceptState (applyFlagWrites s i) i.time).enableQr i.qrFactory).state i.time).2,
      fpsCheck_events_shape _ _, ?_, ?_⟩
    · rw [hstep, processedStep_events, hpass]
    · rw [hstep]
      exact processedStep_kind cfg s i f
  · intro h1 h2 h3 hraise
    have hpass : qrPassOfIteration cfg s i (hazPassOfIteration cfg s i f).1 =
        ((hazPassOfIteration cfg s i f).1, []) :=
      (qrPassOfIteration_of_constructed cfg s i (hazPassOfIteration cfg s i f).1
        st h1 h2 h3).trans
        (runStage_of_raises st (hazPassOfIteration cfg s i f).1 hraise)
    refine ⟨(qrPassOfIteration_of_constructed cfg s i (hazPassOfIteration cfg s i f).1
        st h1 h2 h3).symm.trans hpass |>.symm ▸
        (runStage_of_raises st (hazPassOfIteration cfg s i f).1 hraise),
      (fpsCheck (constructQr cfg
          (constructHazmat cfg (acceptState (applyFlagWrites s i) i.time)
            (acceptState (applyFlagWrites s i) i.time).enableHazmat i.hazFactory).state
          (acceptState (applyFlagWrites s i) i.time).enableQr i.qrFactory).state i.time).2,
      fpsCheck_events_shape _ _, ?_, ?_⟩
    · rw [hstep, processedStep_events, hpass]
    · rw [hstep]
      exact processedStep_kind cfg s i f

/-- Witness for `stage_failure_isolation`: hazmat stage constructed and
enabled, `detect` raises on the accepted frame at `t = 1`. -/
theorem stage_failure_isolation_witness :
    runStage failDetectStage 7 = (7, []) ∧
    ∃ pre, (pre = [] ∨ ∃ v, pre = [Event.fpsReady v]) ∧
      (step wCfg hazFailState (mkInput 1)).events =
        pre ++ [Event.hazmatDet [],
          Event.qrDet (qrPassOfIteration wCfg hazFailState (mkInput 1) 7).2,
          Event.frameReady (qrPassOfIteration wCfg hazFailState (mkInput 1) 7).1] ∧
      (step wCfg hazFailState (mkInput 1)).kind = StepKind.processed :=
  (stage_failure_isolation wCfg hazFailState (mkInput 1) 7 failDetectStage
      (by norm_num [mkInput, hazFailState, initialWState, wCfg, Config.minFrameInterval])
      rfl).1 rfl rfl rfl (Or.inl ⟨(), rfl⟩)

/-! ### Lazy construction: factory failure auto-disables, absence is inert -/

theorem hazPassOfIteration_of_factory_err (cfg : Config) (s : WState)
    (i : IterInput) (f : Frame)
    (h1 : s.enableHazmat = true) (h2 : i.setHaz = none) (h3 : s.hazmat = none)
    (h4 : cfg.hazmatFactoryPresent = true) (h5 : i.hazFactory = Except.error ()) :
    hazPassOfIteration cfg s i f = (f, []) := by
  simp only [hazPassOfIteration]
  rw [h5, constructHazmat_err cfg _ _ () (by simp [applyFlagWrites, h1, h2, h3, h4])]
  simp [stagePass]

theorem qrPassOfIteration_of_factory_err (cfg : Config) (s : WState)
    (i : IterInput) (g : Frame)
    (h1 : s.enableQr = true) (h2 : i.setQr = none) (h3 : s.qr = none)
    (h4 : cfg.qrFactoryPresent = true) (h5 : i.qrFactory = Except.error ()) :
    qrPassOfIteration cfg s i g = (g, []) := by
  simp only [qrPassOfIteration]
  rw [h5, constructQr_err cfg _ _ () (by simp [applyFlagWrites, h1, h2, h3, h4])]
  simp [stagePass]

theorem processedStep_haz_factory_err (cfg : Config) (s : WState)
    (i : IterInput) (f : Frame)
    (h1 : s.enableHazmat = true) (h2 : i.setHaz = none) (h3 : s.hazmat = none)
    (h4 : cfg.hazmatFactoryPresent = true) (h5 : i.hazFactory = Except.error ()) :
    (processedStep cfg s i f).hazConstructAttempt = true ∧
    (processedStep cfg s i f).state.enableHazmat = false ∧
    (processedStep cfg s i f).state.hazmat = none := by
  simp only [processedStep]
  rw [h5, constructHazmat_err cfg _ _ () (by simp [applyFlagWrites, h1, h2, h3, h4])]
  refine ⟨rfl, by simp, by simp [h3]⟩

theorem processedStep_qr_factory_err (cfg : Config) (s : WState)
    (i : IterInput) (f : Frame)
    (h1 : s.enableQr = true) (h2 : i.setQr = none) (h3 : s.qr = none)
    (h4 : cfg.qrFactoryPresent = true) (h5 : i.qrFactory = Except.error ()) :
    (processedStep cfg s i f).qrConstructAttempt = true ∧
    (processedStep cfg s i f).state.enableQr = false ∧
    (processedStep cfg s i f).state.qr = none := by
  simp only [processedStep]
  rw [h5, constructQr_err cfg _ _ () (by simp [applyFlagWrites, h1, h2, h3, h4])]
  refine ⟨rfl, by simp, by simp [h3]⟩

theorem processedStep_haz_off (cfg : Config) (s : WState) (i : IterInput)
    (f : Frame) (h : (applyFlagWrites s i).enableHazmat = false) :
    (processedStep cfg s i f).hazConstructAttempt = false ∧
    (processedStep cfg s i f).state.enableHazmat = false := by
  simp only [processedStep]
  rw [constructHazmat_not_triggered cfg _ _ _ (by simp [h])]
  exact ⟨rfl, by simp [h]⟩

theorem processedStep_qr_off (cfg : Config) (s : WState) (i : IterInput)
    (f : Frame) (h : (applyFlagWrites s i).enableQr = false) :
    (processedStep cfg s i f).qrConstructAttempt = false ∧
    (processedStep cfg s i f).state.enableQr = false := by
  simp only [processedStep]
  rw [constructQr_not_triggered cfg _ _ _ (by simp [h])]
  exact ⟨rfl, by simp [h]⟩

theorem step_haz_stays_off (cfg : Config) (s : WState) (i : IterInput)
    (h : s.enableHazmat = false) (hw : i.setHaz ≠ some true) :
    (step cfg s i).hazConstructAttempt = false ∧
    (step cfg s i).state.enableHazmat = false := by
  have haw : (applyFlagWrites s i).enableHazmat = false := by
    cases hsw : i.setHaz with
    | none => simp [applyFlagWrites, hsw, h]
    | some b =>
        cases b
        · simp [applyFlagWrites, hsw]
        · exact absurd hsw hw
  rcases step_cases cfg s i with ⟨_, heq⟩ | ⟨_, _, heq⟩ | ⟨_, f, _, heq⟩
  · rw [heq]
    exact ⟨rfl, haw⟩
  · rw [heq]
    exact ⟨rfl, haw⟩
  · rw [heq]
    exact processedStep_haz_off cfg s i f haw

theorem step_qr_stays_off (cfg : Config) (s : WState) (i : IterInput)
    (h : s.enableQr = false) (hw : i.setQr ≠ some true) :
    (step cfg s i).qrConstructAttempt = false ∧
    (step cfg s i).state.enableQr = false := by
  have haw : (applyFlagWrites s i).enableQr = false := by
    cases hsw : i.setQr with
    | none => simp [applyFlagWrites, hsw, h]
    | some b =>
        cases b
        · simp [applyFlagWrites, hsw]
        · exact absurd hsw hw
  rcases step_cases cfg s i with ⟨_, heq⟩ | ⟨_, _, heq⟩ | ⟨_, f, _, heq⟩
  · rw [heq]
    exact ⟨rfl, haw⟩
  · rw [heq]
    exact ⟨rfl, haw⟩
  · rw [heq]
    exact processedStep_qr_off cfg s i f haw

theorem runIters_haz_stays_off (cfg : Config) (inputs : List IterInput)
    (hnore : ∀ j ∈ inputs, j.setHaz ≠ some true) :
    ∀ s : WState, s.enableHazmat = false →
      ∀ r ∈ (runIters cfg s inputs).1,
        r.hazConstructAttempt = false ∧ r.state.enableHazmat = false := by
  induction inputs with
  | nil =>
      intro s _ r hr
      rw [runIters_nil] at hr
      simp at hr
  | cons i rest ih =>
      intro s hs r hr
      by_cases hstop : i.stopRequested
      · rw [runIters_cons_stop cfg s i rest hstop] at hr
        simp at hr
      · rw [runIters_cons_go cfg s i rest (Bool.not_eq_true _ ▸ hstop)] at hr
        have hstep := step_haz_stays_off cfg s i hs
          (hnore i (List.mem_cons_self i rest))
        rcases List.mem_cons.mp hr with hr | hr
        · rw [hr]
          exact hstep
        · exact ih (fun j hj => hnore j (List.mem_cons_of_mem i hj))
            (step cfg s i).state hstep.2 r hr

theorem runIters_qr_stays_off (cfg : Config) (inputs : List IterInput)
    (hnore : ∀ j ∈ inputs, j.setQr ≠ some true) :
    ∀ s : WState, s.enableQr = false →
      ∀ r ∈ (runIters cfg s inputs).1,
        r.qrConstructAttempt = false ∧ r.state.enableQr = false := by
  induction inputs with
  | nil =>
      intro s _ r hr
      rw [runIters_nil] at hr
      simp at hr
  | cons i rest ih =>
      intro s hs r hr
      by_cases hstop : i.stopRequested
      · rw [runIters_cons_stop cfg s i rest hstop] at hr
        simp at hr
      · rw [runIters_cons_go cfg s i rest (Bool.not_eq_true _ ▸ hstop)] at hr
        have hstep := step_qr_stays_off cfg s i hs
          (hnore i (List.mem_cons_self i rest))
        rcases List.mem_cons.mp hr with hr | hr
        · rw [hr]
          exact hstep
        · exact ih (fun j hj => hnore j (List.mem_cons_of_mem i hj))
            (step cfg s i).state hstep.2 r hr

/-- C5: if a stage's factory raises during lazy construction, the exception
is caught, the stage's enabled flag is written to `false` (visible to the
consumer), the instance stays unconstructed, the same iteration still
completes and publishes the frame with that stage's findings empty, and —
as long as no consumer write re-enables the stage — no later iteration
attempts construction again.  First conjunct: hazmat; second: QR. -/
theorem factory_failure_auto_disable (cfg : Config) (s : WState) (i : IterInput)
    (f : Frame) (inputs : List IterInput)
    (hge : ¬ i.time - s.lastFrameTime < cfg.minFrameInterval)
    (hr : i.readResult = some f) :
    (s.enableHazmat = true → i.setHaz = none → s.hazmat = none →
      cfg.hazmatFactoryPresent = true → i.hazFactory = Except.error () →
      (step cfg s i).hazConstructAttempt = true ∧
      (step cfg s i).state.enableHazmat = false ∧
      (step cfg s i).state.hazmat = none ∧
      (step cfg s i).kind = StepKind.processed ∧
      (∃ pre, (pre = [] ∨ ∃ v, pre = [Event.fpsReady v]) ∧
        (step cfg s i).events =
          pre ++ [Event.hazmatDet [], Event.qrDet (qrPassOfIteration cfg s i f).2,
            Event.frameReady (qrPassOfIteration cfg s i f).1]) ∧
      ((∀ j ∈ inputs, j.setHaz ≠ some true) →
        ∀ r ∈ (runIters cfg (step cfg s i).state inputs).1,
          r.hazConstructAttempt = false ∧ r.state.enableHazmat = false)) ∧
    (s.enableQr = true → i.setQr = none → s.qr = none →
      cfg.qrFactoryPresent = true → i.qrFactory = Except.error () →
      (step cfg s i).qrConstructAttempt = true ∧
      (step cfg s i).state.enableQr = false ∧
      (step cfg s i).state.qr = none ∧
      (step cfg s i).kind = StepKind.processed ∧
      (∃ pre, (pre = [] ∨ ∃ v, pre = [Event.fpsReady v]) ∧
        (step cfg s i).events =
          pre ++ [Event.hazmatDet (hazPassOfIteration cfg s i f).2, Event.qrDet [],
            Event.frameReady (hazPassOfIteration cfg s i f).1]) ∧
      ((∀ j ∈ inputs, j.setQr ≠ some true) →
        ∀ r ∈ (runIters cfg (step cfg s i).state inputs).1,
          r.qrConstructAttempt = false ∧ r.state.enableQr = false)) := by
  have hstep := step_processed_eq cfg s i f hge hr
  constructor
  · intro h1 h2 h3 h4 h5
    obtain ⟨ha, hb, hc⟩ := processedStep_haz_factory_err cfg s i f h1 h2 h3 h4 h5
    refine ⟨by rw [hstep]; exact ha, by rw [hstep]; exact hb, by rw [hstep]; exact hc,
      by rw [hstep]; exact processedStep_kind cfg s i f, ?_, ?_⟩
    · refine ⟨(fpsCheck (constructQr cfg
          (constructHazmat cfg (acceptState (applyFlagWrites s i) i.time)
            (acceptState (applyFlagWrites s i) i.time).enableHazmat i.hazFactory).state
          (acceptState (applyFlagWrites s i) i.time).enableQr i.qrFactory).state i.time).2,
        fpsCheck_events_shape _ _, ?_⟩
      rw [hstep, processedStep_events,
        hazPassOfIteration_of_factory_err cfg s i f h1 h2 h3 h4 h5]
    · intro hnore
      exact runIters_haz_stays_off cfg inputs hnore (step cfg s i).state
        (by rw [hstep]; exact hb)
  · intro h1 h2 h3 h4 h5
    obtain ⟨ha, hb, hc⟩ := processedStep_qr_factory_err cfg s i f h1 h2 h3 h4 h5
    refine ⟨by rw [hstep]; exact ha, by rw [hstep]; exact hb, by rw [hstep]; exact hc,
      by rw [hstep]; exact processedStep_kind cfg s i f, ?_, ?_⟩
    · refine ⟨(fpsCheck (constructQr cfg
          (constructHazmat cfg (acceptState (applyFlagWrites s i) i.time)
            (acceptState (applyFlagWrites s i) i.time).enableHazmat i.hazFactory).state
          (acceptState (applyFlagWrites s i) i.time).enableQr i.qrFactory).state i.time).2,
        fpsCheck_events_shape _ _, ?_⟩
      rw [hstep, processedStep_events,
        qrPassOfIteration_of_factory_err cfg s i (hazPassOfIteration cfg s i f).1
          h1 h2 h3 h4 h5]
    · intro hnore
      exact runIters_qr_stays_off cfg inputs hnore (step cfg s i).state
        (by rw [hstep]; exact hb)

/-- Witness for `factory_failure_auto_disable`: hazmat enabled and pending,
factory raising at `t = 1`, followed by a benign iteration at `t = 2`. -/
theorem factory_failure_auto_disable_witness :
    (step wCfg hazPendingState hazErrInput).hazConstructAttempt = true ∧
    (step wCfg hazPendingState hazErrInput).state.enableHazmat = false ∧
    (step wCfg hazPendingState hazErrInput).state.hazmat = none ∧
    (step wCfg hazPendingState hazErrInput).kind = StepKind.processed ∧
    (∃ pre, (pre = [] ∨ ∃ v, pre = [Event.fpsReady v]) ∧
      (step wCfg hazPendingState hazErrInput).events =
        pre ++ [Event.hazmatDet [],
          Event.qrDet (qrPassOfIteration wCfg hazPendingState hazErrInput 7).2,
          Event.frameReady (qrPassOfIteration wCfg hazPendingState hazErrInput 7).1]) ∧
    ((∀ j ∈ [mkInput 2], j.setHaz ≠ some true) →
      ∀ r ∈ (runIters wCfg (step wCfg hazPendingState hazErrInput).state [mkInput 2]).1,
        r.hazConstructAttempt = false ∧ r.state.enableHazmat = false) :=
  (factory_failure_auto_disable wCfg hazPendingState hazErrInput 7 [mkInput 2]
      (by norm_num [hazErrInput, mkInput, hazPendingState, initialWState, wCfg,
        Config.minFrameInterval]) rfl).1 rfl rfl rfl rfl rfl

theorem stagePass_none (e : Bool) (f : Frame) : stagePass e none f = (f, []) := by
  unfold stagePass
  split <;> rfl

theorem hazPassOfIteration_no_factory (cfg : Config) (s : WState) (i : IterInput)
    (f : Frame) (hp : cfg.hazmatFactoryPresent = false) (h3 : s.hazmat = none) :
    hazPassOfIteration cfg s i f = (f, []) := by
  simp only [hazPassOfIteration]
  rw [constructHazmat_not_triggered cfg _ _ _ (by simp [hp])]
  simp [stagePass_none, h3]

theorem qrPassOfIteration_no_factory (cfg : Config) (s : WState) (i : IterInput)
    (g : Frame) (hp : cfg.qrFactoryPresent = false) (h3 : s.qr = none) :
    qrPassOfIteration cfg s i g = (g, []) := by
  simp only [qrPassOfIteration]
  rw [constructQr_not_triggered cfg _ _ _ (by simp [hp])]
  simp [stagePass_none, h3]

theorem processedStep_haz_no_factory (cfg : Config) (s : WState) (i : IterInput)
    (f : Frame) (hp : cfg.hazmatFactoryPresent = false) (h3 : s.hazmat = none) :
    (processedStep cfg s i f).hazConstructAttempt = false ∧
    (processedStep cfg s i f).state.hazmat = none ∧
    (processedStep cfg s i f).state.enableHazmat = (applyFlagWrites s i).enableHazmat := by
  simp only [processedStep]
  rw [constructHazmat_not_triggered cfg _ _ _ (by simp [hp])]
  exact ⟨rfl, by simp [h3], by simp⟩

theorem processedStep_qr_no_factory (cfg : Config) (s : WState) (i : IterInput)
    (f : Frame) (hp : cfg.qrFactoryPresent = false) (h3 : s.qr = none) :
    (processedStep cfg s i f).qrConstructAttempt = false ∧
    (processedStep cfg s i f).state.qr = none ∧
    (processedStep cfg s i f).state.enableQr = (applyFlagWrites s i).enableQr := by
  simp only [processedStep]
  rw [constructQr_not_triggered cfg _ _ _ (by simp [hp])]
  exact ⟨rfl, by simp [h3], by simp⟩

theorem step_haz_no_factory (cfg : Config) (s : WState) (i : IterInput)
    (hp : cfg.hazmatFactoryPresent = false) (h3 : s.hazmat = none) :
    (step cfg s i).hazConstructAttempt = false ∧
    (step cfg s i).state.hazmat = none ∧
    (step cfg s i).state.enableHazmat = (applyFlagWrites s i).enableHazmat := by
  rcases step_cases cfg s i with ⟨_, heq⟩ | ⟨_, _, heq⟩ | ⟨_, f, _, heq⟩
  · rw [heq]
    exact ⟨rfl, by simp [h3], rfl⟩
  · rw [heq]
    exact ⟨rfl, by simp [h3], rfl⟩
  · rw [heq]
    exact processedStep_haz_no_factory cfg s i f hp h3

theorem step_qr_no_factory (cfg : Config) (s : WState) (i : IterInput)
    (hp : cfg.qrFactoryPresent = false) (h3 : s.qr = none) :
    (step cfg s i).qrConstructAttempt = false ∧
    (step cfg s i).state.qr = none ∧
    (step cfg s i).state.enableQr = (applyFlagWrites s i).enableQr := by
  rcases step_cases cfg s i with ⟨_, heq⟩ | ⟨_, _, heq⟩ | ⟨_, f, _, heq⟩
  · rw [heq]
    exact ⟨rfl, by simp [h3], rfl⟩
  · rw [heq]
    exact ⟨rfl, by simp [h3], rfl⟩
  · rw [heq]
    exact processedStep_qr_no_factory cfg s i f hp h3

theorem runIters_haz_no_factory (cfg : Config) (inputs : List IterInput)
    (hp : cfg.hazmatFactoryPresent = false) :
    ∀ s : WState, s.hazmat = none →
      ∀ r ∈ (runIters cfg s inputs).1,
        r.hazConstructAttempt = false ∧ r.state.hazmat = none := by
  induction inputs with
  | nil =>
      intro s _ r hr
      rw [runIters_nil] at hr
      simp at hr
  | cons i rest ih =>
      intro s hs r hr
      by_cases hstop : i.stopRequested
      · rw [runIters_cons_stop cfg s i rest hstop] at hr
        simp at hr
      · rw [runIters_cons_go cfg s i rest (Bool.not_eq_true _ ▸ hstop)] at hr
        obtain ⟨ha, hb, _⟩ := step_haz_no_factory cfg s i hp hs
        rcases List.mem_cons.mp hr with hr | hr
        · rw [hr]
          exact ⟨ha, hb⟩
        · exact ih (step cfg s i).state hb r hr

theorem runIters_qr_no_factory (cfg : Config) (inputs : List IterInput)
    (hp : cfg.qrFactoryPresent = false) :
    ∀ s : WState, s.qr = none →
      ∀ r ∈ (runIters cfg s inputs).1,
        r.qrConstructAttempt = false ∧ r.state.qr = none := by
  induction inputs with
  | nil =>
      intro s _ r hr
      rw [runIters_nil] at hr
      simp at hr
  | cons i rest ih =>
      intro s hs r hr
      by_cases hstop : i.stopRequested
      · rw [runIters_cons_stop cfg s i rest hstop] at hr
        simp at hr
      · rw [runIters_cons_go cfg s i rest (Bool.not_eq_true _ ▸ hstop)] at hr
        obtain ⟨ha, hb, _⟩ := step_qr_no_factory cfg s i hp hs
        rcases List.mem_cons.mp hr with hr | hr
        · rw [hr]
          exact ⟨ha, hb⟩
        · exact ih (step cfg s i).state hb r hr

/-- C10 (implicit): a stage that is enabled but whose factory was not
supplied at construction is never constructed nor invoked — no iteration
attempts construction, the instance stays absent across any run segment,
the enabled flag is changed only by consumer writes (never auto-disabled),
and a processed iteration still publishes an empty findings list for that
stage while the frame reaches the other stage and the `frameReady` emission
untouched.  First conjunct: hazmat; second: QR. -/
theorem no_factory_inert (cfg : Config) (s : WState) (i : IterInput) (f : Frame)
    (inputs : List IterInput) :
    (cfg.hazmatFactoryPresent = false → s.hazmat = none →
      (step cfg s i).hazConstructAttempt = false ∧
      (step cfg s i).state.hazmat = none ∧
      (step cfg s i).state.enableHazmat = (applyFlagWrites s i).enableHazmat ∧
      (∀ r ∈ (runIters cfg s inputs).1,
        r.hazConstructAttempt = false ∧ r.state.hazmat = none) ∧
      (¬ i.time - s.lastFrameTime < cfg.minFrameInterval → i.readResult = some f →
        s.enableHazmat = true → i.setHaz = none →
        (step cfg s i).state.enableHazmat = true ∧
        ∃ pre, (pre = [] ∨ ∃ v, pre = [Event.fpsReady v]) ∧
          (step cfg s i).events =
            pre ++ [Event.hazmatDet [], Event.qrDet (qrPassOfIteration cfg s i f).2,
              Event.frameReady (qrPassOfIteration cfg s i f).1])) ∧
    (cfg.qrFactoryPresent = false → s.qr = none →
      (step cfg s i).qrConstructAttempt = false ∧
      (step cfg s i).state.qr = none ∧
      (step cfg s i).state.enableQr = (applyFlagWrites s i).enableQr ∧
      (∀ r ∈ (runIters cfg s inputs).1,
        r.qrConstructAttempt = false ∧ r.state.qr = none) ∧
      (¬ i.time - s.lastFrameTime < cfg.minFrameInterval → i.readResult = some f →
        s.enableQr = true → i.setQr = none →
        (step cfg s i).state.enableQr = true ∧
        ∃ pre, (pre = [] ∨ ∃ v, pre = [Event.fpsReady v]) ∧
          (step cfg s i).events =
            pre ++ [Event.hazmatDet (hazPassOfIteration cfg s i f).2, Event.qrDet [],
              Event.frameReady (hazPassOfIteration cfg s i f).1])) := by
  constructor
  · intro hp h3
    obtain ⟨ha, hb, hc⟩ := step_haz_no_factory cfg s i hp h3
    refine ⟨ha, hb, hc, runIters_haz_no_factory cfg inputs hp s h3, ?_⟩
    intro hge hr h1 h2
    have hstep := step_processed_eq cfg s i f hge hr
    refine ⟨by rw [hc]; simp [applyFlagWrites, h2, h1], ?_⟩
    refine ⟨(fpsCheck (constructQr cfg
        (constructHazmat cfg (acceptState (applyFlagWrites s i) i.time)
          (acceptState (applyFlagWrites s i) i.time).enableHazmat i.hazFactory).state
        (acceptState (applyFlagWrites s i) i.time).enableQr i.qrFactory).state i.time).2,
      fpsCheck_events_shape _ _, ?_⟩
    rw [hstep, processedStep_events, hazPassOfIteration_no_factory cfg s i f hp h3]
  · intro hp h3
    obtain ⟨ha, hb, hc⟩ := step_qr_no_factory cfg s i hp h3
    refine ⟨ha, hb, hc, runIters_qr_no_factory cfg inputs hp s h3, ?_⟩
    intro hge hr h1 h2
    have hstep := step_processed_eq cfg s i f hge hr
    refine ⟨by rw [hc]; simp [applyFlagWrites, h2, h1], ?_⟩
    refine ⟨(fpsCheck (constructQr cfg
        (constructHazmat cfg (acceptState (applyFlagWrites s i) i.time)
          (acceptState (applyFlagWrites s i) i.time).enableHazmat i.hazFactory).state
        (acceptState (applyFlagWrites s i) i.time).enableQr i.qrFactory).state i.time).2,
      fpsCheck_events_shape _ _, ?_⟩
    rw [hstep, processedStep_events,
      qrPassOfIteration_no_factory cfg s i (hazPassOfIteration cfg s i f).1 hp h3]

/-- Witness for `no_factory_inert`: a worker constructed with no factories,
hazmat enabled, over a benign two-iteration schedule. -/
theorem no_factory_inert_witness :
    (step noFacCfg hazPendingState (mkInput 1)).hazConstructAttempt = false ∧
    (step noFacCfg hazPendingState (mkInput 1)).state.hazmat = none ∧
    (step noFacCfg hazPendingState (mkInput 1)).state.enableHazmat =
      (applyFlagWrites hazPendingState (mkInput 1)).enableHazmat ∧
    (∀ r ∈ (runIters noFacCfg hazPendingState [mkInput 2]).1,
      r.hazConstructAttempt = false ∧ r.state.hazmat = none) ∧
    (¬ (mkInput 1).time - hazPendingState.lastFrameTime < noFacCfg.minFrameInterval →
      (mkInput 1).readResult = some 7 →
      hazPendingState.enableHazmat = true → (mkInput 1).setHaz = none →
      (step noFacCfg hazPendingState (mkInput 1)).state.enableHazmat = true ∧
      ∃ pre, (pre = [] ∨ ∃ v, pre = [Event.fpsReady v]) ∧
        (step noFacCfg hazPendingState (mkInput 1)).events =
          pre ++ [Event.hazmatDet [],
            Event.qrDet (qrPassOfIteration noFacCfg hazPendingState (mkInput 1) 7).2,
            Event.frameReady
              (qrPassOfIteration noFacCfg hazPendingState (mkInput 1) 7).1]) :=
  (no_factory_inert noFacCfg hazPendingState (mkInput 1) 7 [mkInput 2]).1 rfl rfl

/-! ### The findings/frame pairing discipline of the emitted trace -/

theorem paired_slept (n : Nat) (l : List Event) :
    paired (Event.slept n :: l) = paired l := rfl

theorem paired_opened_cons (b : Bool) (m : String) (l : List Event) :
    paired (Event.opened b m :: l) = paired l := rfl

theorem paired_fps_cons (v : ℚ) (l : List Event) :
    paired (Event.fpsReady v :: l) = paired l := rfl

theorem paired_triple (h q : List String) (f : Frame) (l : List Event) :
    paired (Event.hazmatDet h :: Event.qrDet q :: Event.frameReady f :: l) =
      paired l := rfl

theorem step_events_paired (cfg : Config) (s : WState) (i : IterInput)
    (l : List Event) :
    paired ((step cfg s i).events ++ l) = paired l := by
  rcases step_cases cfg s i with ⟨_, heq⟩ | ⟨_, _, heq⟩ | ⟨_, f, _, heq⟩
  · rw [heq]
    exact paired_slept 5 l
  · rw [heq]
    exact paired_slept 10 l
  · rw [heq, processedStep_events]
    rcases fpsCheck_events_shape (constructQr cfg
        (constructHazmat cfg (acceptState (applyFlagWrites s i) i.time)
          (acceptState (applyFlagWrites s i) i.time).enableHazmat i.hazFactory).state
        (acceptState (applyFlagWrites s i) i.time).enableQr i.qrFactory).state i.time
      with hfe | ⟨v, hfe⟩
    · rw [hfe]
      simp only [List.nil_append, List.cons_append]
      exact paired_triple _ _ _ l
    · rw [hfe]
      simp only [List.cons_append, List.nil_append]
      rw [paired_fps_cons]
      exact paired_triple _ _ _ l

theorem runIters_flatten_paired (cfg : Config) (inputs : List IterInput) :
    ∀ (s : WState) (l : List Event),
      paired (((runIters cfg s inputs).1.map IterResult.events).flatten ++ l) =
        paired l := by
  induction inputs with
  | nil =>
      intro s l
      rw [runIters_nil]
      simp
  | cons i rest ih =>
      intro s l
      by_cases hstop : i.stopRequested
      · rw [runIters_cons_stop cfg s i rest hstop]
        simp
      · rw [runIters_cons_go cfg s i rest (Bool.not_eq_true _ ▸ hstop)]
        simp only [List.map_cons, List.flatten_cons, List.append_assoc]
        rw [step_events_paired]
        exact ih (step cfg s i).state l

theorem runWorker_paired (cfg : Config) (openOk : Bool) (t0 t1 : ℚ)
    (inputs : List IterInput) :
    paired (runWorker cfg openOk t0 t1 inputs).events = true := by
  cases openOk
  · rfl
  · show paired (Event.opened true "opened" ::
      ((runIters cfg (initialWState t0 t1) inputs).1.map IterResult.events).flatten) = true
    rw [paired_opened_cons]
    have := runIters_flatten_paired cfg inputs (initialWState t0 t1) []
    rw [List.append_nil] at this
    rw [this]
    rfl

/-- C6: in every iteration that accepts a frame, the per-stage findings
lists are published in order — hazmat findings, then QR findings, then the
frame — and all three are computed from that same iteration's frame (the
findings and the published frame arise from chaining this iteration's frame
through the hazmat pass and then the QR pass).  Moreover, over any whole
run of the worker, every `frameReady` in the trace is immediately preceded
by the `qrDet` and `hazmatDet` of its own iteration, so findings of one
frame are never detached from it or re-paired with a later frame. -/
theorem findings_frame_pairing (cfg : Config) (s : WState) (i : IterInput)
    (f : Frame) (openOk : Bool) (t0 t1 : ℚ) (inputs : List IterInput)
    (hge : ¬ i.time - s.lastFrameTime < cfg.minFrameInterval)
    (hr : i.readResult = some f) :
    (∃ pre, (pre = [] ∨ ∃ v, pre = [Event.fpsReady v]) ∧
      (step cfg s i).events =
        pre ++ [Event.hazmatDet (hazPassOfIteration cfg s i f).2,
          Event.qrDet (qrPassOfIteration cfg s i (hazPassOfIteration cfg s i f).1).2,
          Event.frameReady
            (qrPassOfIteration cfg s i (hazPassOfIteration cfg s i f).1).1]) ∧
    paired (runWorker cfg openOk t0 t1 inputs).events = true := by
  refine ⟨⟨(fpsCheck (constructQr cfg
      (constructHazmat cfg (acceptState (applyFlagWrites s i) i.time)
        (acceptState (applyFlagWrites s i) i.time).enableHazmat i.hazFactory).state
      (acceptState (applyFlagWrites s i) i.time).enableQr i.qrFactory).state i.time).2,
    fpsCheck_events_shape _ _, ?_⟩, runWorker_paired cfg openOk t0 t1 inputs⟩
  rw [step_processed_eq cfg s i f hge hr, processedStep_events]

/-- Witness for `findings_frame_pairing`: a full run that opens, streams
two frames and stops, next to a single accepted frame at `t = 1`. -/
theorem findings_frame_pairing_witness :
    (∃ pre, (pre = [] ∨ ∃ v, pre = [Event.fpsReady v]) ∧
      (step wCfg (initialWState 0 0) (mkInput 1)).events =
        pre ++ [Event.hazmatDet
            (hazPassOfIteration wCfg (initialWState 0 0) (mkInput 1) 7).2,
          Event.qrDet (qrPassOfIteration wCfg (initialWState 0 0) (mkInput 1)
            (hazPassOfIteration wCfg (initialWState 0 0) (mkInput 1) 7).1).2,
          Event.frameReady (qrPassOfIteration wCfg (initialWState 0 0) (mkInput 1)
            (hazPassOfIteration wCfg (initialWState 0 0) (mkInput 1) 7).1).1]) ∧
    paired (runWorker wCfg true 0 0 [mkInput 1, mkInput 2, stopInput]).events = true :=
  findings_frame_pairing wCfg (initialWState 0 0) (mkInput 1) 7 true 0 0
    [mkInput 1, mkInput 2, stopInput]
    (by norm_num [mkInput, initialWState, wCfg, Config.minFrameInterval]) rfl

/-! ### The throughput window -/

theorem fpsCheck_emit (s : WState) (t : ℚ) (h : 1 ≤ t - s.lastFpsTime) :
    fpsCheck s t =
      ({ s with frameCount := 0, lastFpsTime := t },
        [Event.fpsReady ((s.frameCount : ℚ) / (t - s.lastFpsTime))]) := by
  unfold fpsCheck
  rw [if_pos h]

theorem fpsCheck_skip (s : WState) (t : ℚ) (h : ¬ 1 ≤ t - s.lastFpsTime) :
    fpsCheck s t = (s, []) := by
  unfold fpsCheck
  rw [if_neg h]

theorem processedStep_throughput_emit (cfg : Config) (s : WState) (i : IterInput)
    (f : Frame) (h : 1 ≤ i.time - s.lastFpsTime) :
    (processedStep cfg s i f).events =
      Event.fpsReady (((s.frameCount + 1 : ℕ) : ℚ) / (i.time - s.lastFpsTime)) ::
        [Event.hazmatDet (hazPassOfIteration cfg s i f).2,
          Event.qrDet (qrPassOfIteration cfg s i (hazPassOfIteration cfg s i f).1).2,
          Event.frameReady
            (qrPassOfIteration cfg s i (hazPassOfIteration cfg s i f).1).1] ∧
    (processedStep cfg s i f).state.frameCount = 0 ∧
    (processedStep cfg s i f).state.lastFpsTime = i.time := by
  have hpt : (constructQr cfg
      (constructHazmat cfg (acceptState (applyFlagWrites s i) i.time)
        (acceptState (applyFlagWrites s i) i.time).enableHazmat i.hazFactory).state
      (acceptState (applyFlagWrites s i) i.time).enableQr
      i.qrFactory).state.lastFpsTime = s.lastFpsTime := by simp
  have hpc : (constructQr cfg
      (constructHazmat cfg (acceptState (applyFlagWrites s i) i.time)
        (acceptState (applyFlagWrites s i) i.time).enableHazmat i.hazFactory).state
      (acceptState (applyFlagWrites s i) i.time).enableQr
      i.qrFactory).state.frameCount = s.frameCount + 1 := by simp
  refine ⟨?_, ?_, ?_⟩
  · rw [processedStep_events, fpsCheck_emit _ _ (by rw [hpt]; exact h), hpt, hpc]
    rfl
  · show (fpsCheck _ i.time).1.frameCount = 0
    rw [fpsCheck_emit _ _ (by rw [hpt]; exact h)]
  · show (fpsCheck _ i.time).1.lastFpsTime = i.time
    rw [fpsCheck_emit _ _ (by rw [hpt]; exact h)]

theorem processedStep_throughput_skip (cfg : Config) (s : WState) (i : IterInput)
    (f : Frame) (h : ¬ 1 ≤ i.time - s.lastFpsTime) :
    (processedStep cfg s i f).events =
      [Event.hazmatDet (hazPassOfIteration cfg s i f).2,
        Event.qrDet (qrPassOfIteration cfg s i (hazPassOfIteration cfg s i f).1).2,
        Event.frameReady
          (qrPassOfIteration cfg s i (hazPassOfIteration cfg s i f).1).1] ∧
    (processedStep cfg s i f).state.frameCount = s.frameCount + 1 ∧
    (processedStep cfg s i f).state.lastFpsTime = s.lastFpsTime := by
  have hpt : (constructQr cfg
      (constructHazmat cfg (acceptState (applyFlagWrites s i) i.time)
        (acceptState (applyFlagWrites s i) i.time).enableHazmat i.hazFactory).state
      (acceptState (applyFlagWrites s i) i.time).enableQr
      i.qrFactory).state.lastFpsTime = s.lastFpsTime := by simp
  refine ⟨?_, ?_, ?_⟩
  · rw [processedStep_events, fpsCheck_skip _ _ (by rw [hpt]; exact h)]
    rfl
  · show (fpsCheck _ i.time).1.frameCount = _
    rw [fpsCheck_skip _ _ (by rw [hpt]; exact h)]
    simp
  · show (fpsCheck _ i.time).1.lastFpsTime = _
    rw [fpsCheck_skip _ _ (by rw [hpt]; exact h)]
    exact hpt

theorem step_time (cfg : Config) (s : WState) (i : IterInput) :
    (step cfg s i).time = i.time := by
  rcases step_cases cfg s i with ⟨_, heq⟩ | ⟨_, _, heq⟩ | ⟨_, f, _, heq⟩ <;>
    rw [heq] <;> rfl

theorem step_fps_dichotomy (cfg : Config) (s : WState) (i : IterInput) :
    ((step cfg s i).events.any isFps = true ∧
      (step cfg s i).state.lastFpsTime = i.time ∧ s.lastFpsTime + 1 ≤ i.time) ∨
    ((step cfg s i).events.any isFps = false ∧
      (step cfg s i).state.lastFpsTime = s.lastFpsTime) := by
  rcases step_cases cfg s i with ⟨_, heq⟩ | ⟨_, _, heq⟩ | ⟨_, f, _, heq⟩
  · right
    rw [heq]
    exact ⟨rfl, rfl⟩
  · right
    rw [heq]
    exact ⟨rfl, rfl⟩
  · by_cases hfps : 1 ≤ i.time - s.lastFpsTime
    · left
      obtain ⟨hev, _, hlt⟩ := processedStep_throughput_emit cfg s i f hfps
      rw [heq, hev]
      exact ⟨by simp [isFps], hlt, by linarith⟩
    · right
      obtain ⟨hev, _, hlt⟩ := processedStep_throughput_skip cfg s i f hfps
      rw [heq, hev]
      exact ⟨by simp [isFps], hlt⟩

theorem fpsTimes_nil : fpsTimes [] = [] := rfl

theorem fpsTimes_cons (r : IterResult) (rs : List IterResult) :
    fpsTimes (r :: rs) =
      if r.events.any isFps then r.time :: fpsTimes rs else fpsTimes rs := by
  unfold fpsTimes
  rw [List.filter_cons]
  by_cases h : r.events.any isFps
  · simp [h]
  · simp [h]

/-- Throughput chain: prefixing the current window start, throughput
emissions of any run segment are at least one second apart. -/
theorem runIters_fpsTimes_chain (cfg : Config) (inputs : List IterInput) :
    ∀ s : WState,
      List.Chain' (fun a b => a + 1 ≤ b)
        (s.lastFpsTime :: fpsTimes (runIters cfg s inputs).1) := by
  induction inputs with
  | nil =>
      intro s
      rw [runIters_nil]
      simp [fpsTimes_nil]
  | cons i rest ih =>
      intro s
      by_cases hstop : i.stopRequested
      · rw [runIters_cons_stop cfg s i rest hstop]
        simp [fpsTimes_nil]
      · rw [runIters_cons_go cfg s i rest (Bool.not_eq_true _ ▸ hstop)]
        rw [fpsTimes_cons]
        rcases step_fps_dichotomy cfg s i with ⟨hany, hlt, hle⟩ | ⟨hany, hlt⟩
        · rw [if_pos hany, step_time]
          rw [List.chain'_cons]
          refine ⟨hle, ?_⟩
          have := ih (step cfg s i).state
          rw [hlt] at this
          exact this
        · rw [if_neg (by simp [hany])]
          have := ih (step cfg s i).state
          rw [hlt] at this
          exact this

/-- C8: the throughput sample is emitted only in an iteration that accepted
a frame and whose window has reached one second; it then equals the
accepted-frame count of the window (including this frame) divided by the
elapsed window time, and both the counter and the window start are reset
(counter to zero, window start to the current time).  When the window has
not yet reached one second, nothing is emitted and the counter just grows.
Consecutive emission times of any run segment are at least one second
apart (chain anchored at the current window start). -/
theorem throughput_window (cfg : Config) (s : WState) (i : IterInput) (f : Frame)
    (inputs : List IterInput)
    (hge : ¬ i.time - s.lastFrameTime < cfg.minFrameInterval)
    (hr : i.readResult = some f) :
    (1 ≤ i.time - s.lastFpsTime →
      (step cfg s i).events =
        Event.fpsReady (((s.frameCount + 1 : ℕ) : ℚ) / (i.time - s.lastFpsTime)) ::
          [Event.hazmatDet (hazPassOfIteration cfg s i f).2,
            Event.qrDet (qrPassOfIteration cfg s i (hazPassOfIteration cfg s i f).1).2,
            Event.frameReady
              (qrPassOfIteration cfg s i (hazPassOfIteration cfg s i f).1).1] ∧
      (step cfg s i).state.frameCount = 0 ∧
      (step cfg s i).state.lastFpsTime = i.time) ∧
    (¬ 1 ≤ i.time - s.lastFpsTime →
      (step cfg s i).events.any isFps = false ∧
      (step cfg s i).state.frameCount = s.frameCount + 1 ∧
      (step cfg s i).state.lastFpsTime = s.lastFpsTime) ∧
    List.Chain' (fun a b => a + 1 ≤ b)
      (s.lastFpsTime :: fpsTimes (runIters cfg s inputs).1) := by
  have hstep := step_processed_eq cfg s i f hge hr
  refine ⟨?_, ?_, runIters_fpsTimes_chain cfg inputs s⟩
  · intro h
    obtain ⟨hev, hfc, hlt⟩ := processedStep_throughput_emit cfg s i f h
    rw [hstep]
    exact ⟨hev, hfc, hlt⟩
  · intro h
    obtain ⟨hev, hfc, hlt⟩ := processedStep_throughput_skip cfg s i f h
    rw [hstep, hev]
    exact ⟨by simp [isFps], hfc, hlt⟩

/-- Witness for `throughput_window`: a frame accepted at `t = 3` with the
window open since `t = 0` (width 3 ≥ 1), over a short follow-up schedule. -/
theorem throughput_window_witness :
    (¬ (mkInput 3).time - (initialWState 0 0).lastFrameTime < wCfg.minFrameInterval) ∧
    ((1 ≤ (mkInput 3).time - (initialWState 0 0).lastFpsTime →
      (step wCfg (initialWState 0 0) (mkInput 3)).events =
        Event.fpsReady ((((initialWState 0 0).frameCount + 1 : ℕ) : ℚ) /
            ((mkInput 3).time - (initialWState 0 0).lastFpsTime)) ::
          [Event.hazmatDet
              (hazPassOfIteration wCfg (initialWState 0 0) (mkInput 3) 7).2,
            Event.qrDet (qrPassOfIteration wCfg (initialWState 0 0) (mkInput 3)
              (hazPassOfIteration wCfg (initialWState 0 0) (mkInput 3) 7).1).2,
            Event.frameReady (qrPassOfIteration wCfg (initialWState 0 0) (mkInput 3)
              (hazPassOfIteration wCfg (initialWState 0 0) (mkInput 3) 7).1).1] ∧
      (step wCfg (initialWState 0 0) (mkInput 3)).state.frameCount = 0 ∧
      (step wCfg (initialWState 0 0) (mkInput 3)).state.lastFpsTime = (mkInput 3).time) ∧
    (¬ 1 ≤ (mkInput 3).time - (initialWState 0 0).lastFpsTime →
      (step wCfg (initialWState 0 0) (mkInput 3)).events.any isFps = false ∧
      (step wCfg (initialWState 0 0) (mkInput 3)).state.frameCount =
        (initialWState 0 0).frameCount + 1 ∧
      (step wCfg (initialWState 0 0) (mkInput 3)).state.lastFpsTime =
        (initialWState 0 0).lastFpsTime) ∧
    List.Chain' (fun a b => a + 1 ≤ b)
      ((initialWState 0 0).lastFpsTime ::
        fpsTimes (runIters wCfg (initialWState 0 0) [mkInput 1, mkInput 2]).1)) :=
  ⟨by norm_num [mkInput, initialWState, wCfg, Config.minFrameInterval],
    throughput_window wCfg (initialWState 0 0) (mkInput 3) 7 [mkInput 1, mkInput 2]
      (by norm_num [mkInput, initialWState, wCfg, Config.minFrameInterval]) rfl⟩

/-- C9: `ParameterSetterThread.run` reports exactly one boolean outcome per
run; if the interruption flag was set at entry, or is observed set right
after the blocking call returns, the run still terminates and the single
outcome is failure; a raised request exception is converted into a failure
outcome instead of propagating; and in the undisturbed case the outcome is
exactly `status == 200`. -/
theorem param_setter_outcome (host : String) (i1 : Bool)
    (res : Except ReqErr Nat) (i2 : Bool) :
    ∃ b : Bool, paramSetterRun host i1 res i2 = [b] ∧
      (i1 = true → b = false) ∧
      (i2 = true → b = false) ∧
      (∀ e, res = Except.error e → b = false) ∧
      (host ≠ "" → i1 = false → i2 = false → ∀ c, res = Except.ok c →
        b = decide (c = 200)) := by
  by_cases hh : host = ""
  · exact ⟨false, by simp [paramSetterRun, hh], fun _ => rfl, fun _ => rfl,
      fun _ _ => rfl, fun hne => absurd hh hne⟩
  · cases i1 with
    | true =>
        exact ⟨false, by simp [paramSetterRun, hh], fun _ => rfl, fun _ => rfl,
          fun _ _ => rfl, fun _ h1 => Bool.noConfusion h1⟩
    | false =>
        cases res with
        | error e =>
            exact ⟨false, by simp [paramSetterRun, hh], fun _ => rfl, fun _ => rfl,
              fun _ _ => rfl, fun _ _ _ c hc => by simp at hc⟩
        | ok c =>
            cases i2 with
            | true =>
                exact ⟨false, by simp [paramSetterRun, hh],
                  fun h1 => Bool.noConfusion h1, fun _ => rfl,
                  fun e he => by simp at he, fun _ _ h2 => Bool.noConfusion h2⟩
            | false =>
                refine ⟨decide (c = 200), by simp [paramSetterRun, hh],
                  fun h1 => Bool.noConfusion h1, fun h2 => Bool.noConfusion h2,
                  fun e he => by simp at he, fun _ _ _ c' hc' => ?_⟩
                injection hc' with h
                rw [h]

/-- Witness for `param_setter_outcome`: an undisturbed successful call to a
non-empty host with status 200. -/
theorem param_setter_outcome_witness :
    ∃ b : Bool, paramSetterRun "192.168.1.50" false (Except.ok 200) false = [b] ∧
      (false = true → b = false) ∧
      (false = true → b = false) ∧
      (∀ e, (Except.ok 200 : Except ReqErr Nat) = Except.error e → b = false) ∧
      ("192.168.1.50" ≠ "" → false = false → false = false →
        ∀ c, (Except.ok 200 : Except ReqErr Nat) = Except.ok c →
          b = decide (c = 200)) :=
  param_setter_outcome "192.168.1.50" false (Except.ok 200) false

end Esp32Cam
